import Mathlib

/-!
A shallow embedding of the table-data utility module (`src/lib/Utils.js`
of react-taco-table): cell-value access, sort-key derivation, column
lookup, the type-aware stable comparators, the sort orchestrator, and
the duplicate-column-id validator, together with theorems about them.

Modelling conventions:
* JavaScript values flowing through the sort pipeline are modelled by
  the inductive `Val` (numbers and strings); `Option Val` stands for a
  possibly `null`/`undefined` value (`none` = null/undefined, which the
  code always tests with `== null`).
* JavaScript numbers are modelled as integers; `parseFloat` is modelled
  by a decimal-integer parse on strings (a string that does not parse
  as a number yields `none`, standing for `NaN`).
* A comparator returns `Option Int`: `some d` is an ordinary numeric
  result, `none` stands for `NaN` (which the code can return when
  `parseFloat` produces `NaN`, since `NaN === 0` is false).
* `localeCompare` of two strings is modelled by `strCompare`, which
  returns the sign (-1/0/1) of the lexicographic comparison, applied
  after `toLower` exactly as in the code.
* Row records are association lists from string keys to values;
  `getProp row k` models `row[k]` (absent key = `undefined` = `none`).
* Diagnostics (`console.warn`) are modelled by returning the list of
  diagnostics instead of writing to a console; functions whose only
  effect is such logging otherwise behave identically.
-/

/-- Modelled from the spec: the `DataType` enumeration (`src/lib/DataType.js`
is not part of the sources here). The spec gives
`enum \x7bNumber, NumberOrdinal, String, <others treated generically>\x7d`;
`Other` stands for every tag that is not one of the three named ones
(they all take the default branch of the comparator switch). -/
inductive DataType where
  | Number
  | NumberOrdinal
  | String
  | Other
deriving DecidableEq, Repr

/-- Modelled from the spec: the `SortDirection` enumeration
(`src/lib/SortDirection.js` is not part of the sources here):
`enum \x7bAscending, Descending\x7d`. -/
inductive SortDirection where
  | Ascending
  | Descending
deriving DecidableEq, Repr

/-- A JavaScript value that can appear as cell data / sort key:
a number (modelled as an integer) or a string. -/
inductive Val where
  | num (n : Int)
  | str (s : String)
deriving DecidableEq, Repr

/-- A row record: an association list from keys to values
(an opaque keyed mapping in the spec's words). -/
abbrev RowData := List (String × Val)

/-- JavaScript `row[k]`: `none` models `undefined` for an absent key. -/
def getProp (row : RowData) (k : String) : Option Val :=
  (row.find? (fun p => p.1 == k)).map (·.2)

/-- The function-free projection of a column definition: what a
caller-supplied callback can observe of a column besides its callbacks.
(Used to type the `allColumns` argument of `column.value`, since a
column cannot mention the type of its own collection recursively.) -/
structure ColumnView where
  id : String
  type : DataType
  sortType : Option DataType
deriving DecidableEq, Repr

/-- The `value` field of a column definition: in the code it is either a
function (tested with `typeof value === 'function'`), a non-null key
into the row record, or absent. -/
inductive ValueSpec where
  | func (f : RowData → Nat → List RowData → List ColumnView → Option Val)
  | key (k : String)

/-- A column definition. `type := .Other` also stands for an absent
`type` field (an absent tag takes the comparator switch's default
branch, exactly like any unrecognised tag). -/
structure Column where
  id : String
  value : Option ValueSpec := none
  sortValue : Option (Option Val → RowData → Option Val) := none
  type : DataType := DataType.Other
  sortType : Option DataType := none

instance : Inhabited Column := ⟨{ id := "" }⟩

/-- The function-free view of a column. -/
def Column.toView (c : Column) : ColumnView :=
  { id := c.id, type := c.type, sortType := c.sortType }

/-- Embeds `getCellData(column, rowData, rowNumber, tableData, columns)`:
if `column.value` is a function call it, else if it is non-null use it
as a key into `rowData`, else use `column.id` as the key. -/
def getCellData (column : Column) (rowData : RowData) (rowNumber : Nat)
    (tableData : List RowData) (columns : List Column) : Option Val :=
  match column.value with
  | some (ValueSpec.func f) => f rowData rowNumber tableData (columns.map Column.toView)
  | some (ValueSpec.key k) => getProp rowData k
  | none => getProp rowData column.id

/-- Embeds `getSortValueFromCellData(cellData, column, rowData)`: apply
`column.sortValue` when present (`if (sortValue)`; a function is always
truthy), else return the cell data unchanged. -/
def getSortValueFromCellData (cellData : Option Val) (column : Column)
    (rowData : RowData) : Option Val :=
  match column.sortValue with
  | some sortValue => sortValue cellData rowData
  | none => cellData

/-- Embeds `getSortValue(column, rowData, rowNumber, tableData, columns)`. -/
def getSortValue (column : Column) (rowData : RowData) (rowNumber : Nat)
    (tableData : List RowData) (columns : List Column) : Option Val :=
  getSortValueFromCellData (getCellData column rowData rowNumber tableData columns)
    column rowData

/-- Embeds `getColumnById(columns, columnId)`: `columns.find(c => c.id === columnId)`. -/
def getColumnById (columns : List Column) (columnId : String) : Option Column :=
  columns.find? (fun column => column.id == columnId)

/-- The sort item built per row: `{ rowData, index, sortValue }`. -/
structure SortItem where
  rowData : RowData
  index : Nat
  sortValue : Option Val

/-- One decimal digit of a character, `none` when the character is not
a digit. -/
def digitVal? (c : Char) : Option Nat :=
  if c.isDigit then some (c.toNat - 48) else none

/-- Accumulating decimal parse of a character list; fails on the first
non-digit character. -/
def parseNatAux : List Char → Nat → Option Nat
  | [], acc => some acc
  | c :: cs, acc =>
    match digitVal? c with
    | some d => parseNatAux cs (acc * 10 + d)
    | none => none

/-- Parse a string as a (possibly negated) decimal integer; `none`
models `NaN`. Mirrors JavaScript `parseFloat` on the integer-valued
strings of this value domain (empty or non-numeric strings give `NaN`). -/
def parseIntStr (s : String) : Option Int :=
  match s.data with
  | [] => none
  | c :: cs =>
    if c = '-' then
      match cs with
      | [] => none
      | _ => (parseNatAux cs 0).map (fun n => -(n : Int))
    else (parseNatAux (c :: cs) 0).map (fun n => (n : Int))

/-- Models `parseFloat` as used by the numeric comparator: a number parses to
itself; a string parses as a decimal integer (`none` = `NaN`). -/
def parseFloat : Val → Option Int
  | Val.num n => some n
  | Val.str s => parseIntStr s

/-- ASCII lower-casing of a string, modelling `toLowerCase()`. -/
def toLowerStr (s : String) : String :=
  String.mk (s.data.map Char.toLower)

/-- JavaScript `String(v)` on our value domain. -/
def jsToString : Val → String
  | Val.num n => toString n
  | Val.str s => s

/-- The sign of `a.localeCompare(b)`: negative, zero, or positive
according to lexicographic string order. -/
def strCompare (a b : String) : Int :=
  if a < b then -1 else if b < a then 1 else 0

/-- JavaScript strict equality `===` on our value domain (values of
different runtime types are never strictly equal). -/
def jsStrictEq : Val → Val → Bool
  | Val.num a, Val.num b => a == b
  | Val.str a, Val.str b => a == b
  | _, _ => false

/-- JavaScript `<` on our value domain: numeric on two numbers,
lexicographic on two strings, and via string-to-number coercion on a
mixed pair (a string that is not a number gives `NaN`, and every
comparison with `NaN` is false). -/
def jsLt : Val → Val → Bool
  | Val.num a, Val.num b => a < b
  | Val.str a, Val.str b => a < b
  | Val.num a, Val.str b =>
    match parseIntStr b with
    | some nb => a < nb
    | none => false
  | Val.str a, Val.num b =>
    match parseIntStr a with
    | some na => na < b
    | none => false

/-- The comparator for `DataType.Number` / `DataType.NumberOrdinal`:
nulls sort last; otherwise compare `parseFloat` values, index-tie-break
on a zero difference. A `NaN` difference (either side fails to parse)
is returned as-is (`none`), since `NaN === 0` is false. -/
def numberComparator (a b : SortItem) : Option Int :=
  match a.sortValue, b.sortValue with
  | none, none => some ((a.index : Int) - (b.index : Int))
  | none, some _ => some 1
  | some _, none => some (-1)
  | some x, some y =>
    match parseFloat x, parseFloat y with
    | some px, some py =>
      if px - py = 0 then some ((a.index : Int) - (b.index : Int))
      else some (px - py)
    | _, _ => none

/-- The comparator for `DataType.String`: nulls sort first; otherwise
locale-compare the lower-cased string coercions, index-tie-break on a
zero result. -/
def stringComparator (a b : SortItem) : Option Int :=
  match a.sortValue, b.sortValue with
  | none, none => some ((a.index : Int) - (b.index : Int))
  | none, some _ => some (-1)
  | some _, none => some 1
  | some x, some y =>
    let result := strCompare (toLowerStr (jsToString x)) (toLowerStr (jsToString y))
    if result = 0 then some ((a.index : Int) - (b.index : Int))
    else some result

/-- The default comparator (any other data type): nulls sort first;
strictly equal values index-tie-break; otherwise order by `<`. -/
def defaultComparator (a b : SortItem) : Option Int :=
  match a.sortValue, b.sortValue with
  | none, none => some ((a.index : Int) - (b.index : Int))
  | none, some _ => some (-1)
  | some _, none => some 1
  | some x, some y =>
    if jsStrictEq x y then some ((a.index : Int) - (b.index : Int))
    else if jsLt x y then some (-1) else some 1

/-- Embeds `getSortComparator(type)`: dispatch on the data type. -/
def getSortComparator (type : DataType) : SortItem → SortItem → Option Int :=
  match type with
  | DataType.Number | DataType.NumberOrdinal => numberComparator
  | DataType.String => stringComparator
  | DataType.Other => defaultComparator

example : getSortComparator DataType.Number
    ⟨[], 0, some (Val.str "abc")⟩ ⟨[], 1, some (Val.str "abc")⟩ = none := by
  decide

example : getSortComparator DataType.Number
    ⟨[], 0, some (Val.num 5)⟩ ⟨[], 1, some (Val.num 5)⟩ = some (-1) := by
  decide

/-- Insert an element into a list, placing it before the first element
`y` for which `le x y` holds. -/
def insertItem (le : SortItem → SortItem → Bool) (x : SortItem) :
    List SortItem → List SortItem
  | [] => [x]
  | y :: ys => if le x y then x :: y :: ys else y :: insertItem le x ys

/-- A comparison sort (insertion sort) over sort items, standing for
`Array.prototype.sort` with the given comparator-induced ordering.
The comparator's own index tie-break makes the result independent of
the algorithm whenever the comparator never returns `NaN`. -/
def jsSort (le : SortItem → SortItem → Bool) : List SortItem → List SortItem
  | [] => []
  | x :: xs => insertItem le x (jsSort le xs)

/-- Models "a stays before b" for `Array.sort`: comparator result `≤ 0`
(`NaN`, modelled by `none`, is not `> 0`, so it also keeps the order). -/
def compLe (comparator : SortItem → SortItem → Option Int)
    (a b : SortItem) : Bool :=
  decide ((comparator a b).getD 0 ≤ 0)

/-- Embeds the sort-item construction pass of `sortData`,
with the running index made explicit. -/
def toSortItems (column : Column) (data : List RowData)
    (columns : List Column) : Nat → List RowData → List SortItem
  | _, [] => []
  | i, rowData :: rest =>
    { rowData := rowData, index := i,
      sortValue := getSortValue column rowData i data columns } ::
      toSortItems column data columns (i + 1) rest

/-- The effective sort type of a column:
`column.sortType == null ? column.type : column.sortType`. -/
def effectiveSortType (column : Column) : DataType :=
  match column.sortType with
  | none => column.type
  | some t => t

/-- Embeds `sortData(data, columnId, sortDirection, columns)`: look up the
column (returning the data unchanged when absent, after a diagnostic),
build sort items, sort them with the comparator for the effective sort
type, project back to row data, and reverse when descending. -/
def sortData (data : List RowData) (columnId : String)
    (sortDirection : SortDirection) (columns : List Column) : List RowData :=
  match getColumnById columns columnId with
  | none => data
  | some column =>
    let comparator := getSortComparator (effectiveSortType column)
    let sortedData :=
      (jsSort (compLe comparator) (toSortItems column data columns 0 data)).map
        (·.rowData)
    match sortDirection with
    | SortDirection.Descending => sortedData.reverse
    | SortDirection.Ascending => sortedData

/-- Written from the spec's words for 4.3, to be compared with
`getColumnById`: the first column whose `id` equals the target, `none`
when no column matches. -/
def firstMatch : List Column → String → Option Column
  | [], _ => none
  | c :: cs, columnId => if c.id = columnId then some c else firstMatch cs columnId

/-- One diagnostic of the column validator: the duplicated identifier,
the positions at which it occurs, and the column definitions at those
positions (the arguments of the `console.warn` call). -/
structure ColumnDiagnostic where
  id : String
  positions : List Nat
  offenders : List Column

/-- Embeds one step of the validator's id-indexing pass
`if (!ids[id]) \x7b ids[id] = [i]; \x7d else \x7b ids[id].push(i); \x7d`
in the case where the read `ids[id]` finds an own entry or nothing at
all: an own entry gets `i` pushed; an absent key is created as `[i]` at
the end of the key order. -/
def addIdOwn (ids : List (String × List Nat)) (id : String) (i : Nat) :
    List (String × List Nat) :=
  match ids with
  | [] => [(id, [i])]
  | (k, ps) :: rest =>
    if k = id then (k, ps ++ [i]) :: rest else (k, ps) :: addIdOwn rest id i

/-- The own property names of `Object.prototype`: reading any of them
from a plain object with no own entry for that key falls through the
prototype chain to a truthy value (a function, or the result of the
`__proto__` accessor). -/
def protoKeys : List String :=
  ["constructor", "hasOwnProperty", "isPrototypeOf", "propertyIsEnumerable",
   "toLocaleString", "toString", "valueOf", "__defineGetter__",
   "__defineSetter__", "__lookupGetter__", "__lookupSetter__", "__proto__"]

/-- Truthiness of the read `ids[k]` when the table has no own entry for
`k`: truthy exactly when the read finds an inherited `Object.prototype`
value. -/
def protoTruthy (k : String) : Bool := protoKeys.contains k

/-- A JavaScript exception of the validator: the TypeError thrown by
`ids[id].push(i)` when `ids[id]` was an inherited non-array
`Object.prototype` value. -/
inductive JsError where
  | typeError
deriving DecidableEq, Repr

/-- Embeds one step of the validator's id-indexing pass
`if (!ids[id]) \x7b ids[id] = [i]; \x7d else \x7b ids[id].push(i); \x7d`,
prototype chain included: an own entry gets `i` pushed; with no own
entry, an id that is an `Object.prototype` property name reads an
inherited truthy non-array, so `ids[id].push(i)` throws a TypeError;
any other absent id reads `undefined` (falsy) and is created as `[i]`. -/
def addId (ids : List (String × List Nat)) (id : String) (i : Nat) :
    Except JsError (List (String × List Nat)) :=
  match ids with
  | [] =>
    if protoTruthy id then Except.error JsError.typeError
    else Except.ok [(id, [i])]
  | (k, ps) :: rest =>
    if k = id then Except.ok ((k, ps ++ [i]) :: rest)
    else (addId rest id i).map (fun ids2 => (k, ps) :: ids2)

/-- Embeds the validator's `columns.forEach((column, i) => ...)` pass
building the id-to-positions table, with the running index made
explicit; a thrown TypeError aborts the pass and propagates. -/
def buildIds (ids : List (String × List Nat)) (i : Nat) :
    List Column → Except JsError (List (String × List Nat))
  | [] => Except.ok ids
  | c :: cs =>
    match addId ids c.id i with
    | Except.error e => Except.error e
    | Except.ok ids2 => buildIds ids2 (i + 1) cs

/-- The id table the validator builds in the non-throwing case, when no
column id collides with an `Object.prototype` property name. -/
def buildIdsOwn (ids : List (String × List Nat)) (i : Nat) :
    List Column → List (String × List Nat)
  | [] => ids
  | c :: cs => buildIdsOwn (addIdOwn ids c.id i) (i + 1) cs

/-- Embeds `validateColumns(columns)`: a no-op on a missing collection;
otherwise build the id table — which throws a TypeError as soon as a
column id first occurs while being an inherited `Object.prototype`
key — and emit one diagnostic per identifier recorded at more than one
position, carrying the identifier, its positions, and the columns at
those positions. (The diagnostics are returned instead of logged.) -/
def validateColumns (columns : Option (List Column)) :
    Except JsError (List ColumnDiagnostic) :=
  match columns with
  | none => Except.ok []
  | some cols =>
    match buildIds [] 0 cols with
    | Except.error e => Except.error e
    | Except.ok ids =>
      Except.ok (ids.filterMap (fun e =>
        if 1 < e.2.length then
          some { id := e.1, positions := e.2,
                 offenders := e.2.map (fun i => cols.getD i default) }
        else none))

/-- Association-list lookup in the validator's id table. -/
def lookupIds (ids : List (String × List Nat)) (k : String) : Option (List Nat) :=
  (ids.find? (fun e => e.1 == k)).map (·.2)

/-- Written from the spec's words: the positions (indices, ascending,
starting at `i`) of the columns whose id is `k`. -/
def posFrom (k : String) : Nat → List Column → List Nat
  | _, [] => []
  | i, c :: cs => if c.id = k then i :: posFrom k (i + 1) cs else posFrom k (i + 1) cs

/-- The duplicate-id example collection from the spec's test bullet. -/
def exampleColumns : List Column := [{ id := "a" }, { id := "b" }, { id := "a" }]

example :
    sortData [[("n", Val.num 3)], [("n", Val.num 1)], [("n", Val.num 2)]]
      "n" SortDirection.Ascending [{ id := "n", type := DataType.Number }] =
    [[("n", Val.num 1)], [("n", Val.num 2)], [("n", Val.num 3)]] := by
  rfl

example :
    sortData [[("n", Val.num 3)], [("n", Val.num 1)], [("n", Val.num 2)]]
      "n" SortDirection.Descending [{ id := "n", type := DataType.Number }] =
    [[("n", Val.num 3)], [("n", Val.num 2)], [("n", Val.num 1)]] := by
  rfl

example :
    validateColumns (some [{ id := "a" }, { id := "b" }, { id := "a" }]) =
    Except.ok [{ id := "a", positions := [0, 2],
                 offenders := [{ id := "a" }, { id := "a" }] }] := by
  rfl

example :
    validateColumns (some [{ id := "toString" }]) =
      Except.error JsError.typeError := by
  rfl

/-- A sort key is "comparable" for a data type when the comparator of
that type can reach its index tie-break on an equal pair: always, except
that the numeric comparators additionally need a non-null key to parse
as a number (`parseFloat` not NaN). -/
def comparableKey (t : DataType) (k : Option Val) : Bool :=
  match t, k with
  | DataType.Number, some v => (parseFloat v).isSome
  | DataType.NumberOrdinal, some v => (parseFloat v).isSome
  | _, _ => true

/-- The keys of the validator's id table. -/
def idKeys (ids : List (String × List Nat)) : List String := ids.map (·.1)

/-- Combine an already-recorded position list with newly found
positions, as the id table does: `none` means the key is absent. -/
def joinPos : Option (List Nat) → List Nat → Option (List Nat)
  | some ps, l => some (ps ++ l)
  | none, [] => none
  | none, x :: l => some (x :: l)

/-- The diagnostic the validator emits for one entry of its id table:
only entries whose position list has more than one element produce one. -/
def validatorDiag (cols : List Column) (e : String × List Nat) :
    Option ColumnDiagnostic :=
  if 1 < e.2.length then
    some { id := e.1, positions := e.2,
           offenders := e.2.map (fun i => cols.getD i default) }
  else none

/-- C5: getCellData resolves, in order: a function `value` is invoked
with (rowData, rowIndex, allRows, allColumns); a non-null key `value`
indexes the row record; otherwise `column.id` indexes the row record. -/
theorem getCellData_resolution_order (c : Column) (row : RowData) (i : Nat)
    (data : List RowData) (cols : List Column)
    (f : RowData → Nat → List RowData → List ColumnView → Option Val)
    (k : String) :
    getCellData { c with value := some (ValueSpec.func f) } row i data cols =
      f row i data (cols.map Column.toView) ∧
    getCellData { c with value := some (ValueSpec.key k) } row i data cols =
      getProp row k ∧
    getCellData { c with value := none } row i data cols = getProp row c.id :=
  ⟨rfl, rfl, rfl⟩

/-- C6: getSortValueFromCellData applies `column.sortValue` to
(cellData, rowData) when it is set and returns the cell data unchanged
when it is not; it is a pure function of its arguments. -/
theorem getSortValueFromCellData_resolution (cellData : Option Val)
    (c : Column) (row : RowData) (f : Option Val → RowData → Option Val) :
    getSortValueFromCellData cellData { c with sortValue := some f } row =
      f cellData row ∧
    getSortValueFromCellData cellData { c with sortValue := none } row =
      cellData :=
  ⟨rfl, rfl⟩

/-- C3: with exactly one null sort key, the numeric comparators place
the null-keyed item last ascending (null compares greater), while the
string comparator and the default comparator place it first ascending
(null compares lesser). -/
theorem comparator_null_policy (rd rd' : RowData) (i j : Nat) (v : Val) :
    getSortComparator DataType.Number ⟨rd, i, none⟩ ⟨rd', j, some v⟩ = some 1 ∧
    getSortComparator DataType.Number ⟨rd', j, some v⟩ ⟨rd, i, none⟩ = some (-1) ∧
    getSortComparator DataType.NumberOrdinal ⟨rd, i, none⟩ ⟨rd', j, some v⟩ = some 1 ∧
    getSortComparator DataType.NumberOrdinal ⟨rd', j, some v⟩ ⟨rd, i, none⟩ = some (-1) ∧
    getSortComparator DataType.String ⟨rd, i, none⟩ ⟨rd', j, some v⟩ = some (-1) ∧
    getSortComparator DataType.String ⟨rd', j, some v⟩ ⟨rd, i, none⟩ = some 1 ∧
    getSortComparator DataType.Other ⟨rd, i, none⟩ ⟨rd', j, some v⟩ = some (-1) ∧
    getSortComparator DataType.Other ⟨rd', j, some v⟩ ⟨rd, i, none⟩ = some 1 :=
  ⟨rfl, rfl, rfl, rfl, rfl, rfl, rfl, rfl⟩

/-- C4: when no column's id equals the requested identifier, sortData
returns the input row collection unchanged. -/
theorem sortData_unknown_column (data : List RowData) (cid : String)
    (dir : SortDirection) (cols : List Column)
    (h : getColumnById cols cid = none) :
    sortData data cid dir cols = data := by
  unfold sortData
  rw [h]

/-- Witness for C4 at a concrete input: a column collection with no
matching id leaves the data untouched. -/
theorem sortData_unknown_column_witness :
    sortData [[("a", Val.num 1)], [("a", Val.num 0)]] "missing"
      SortDirection.Ascending [{ id := "b" }] =
    [[("a", Val.num 1)], [("a", Val.num 0)]] :=
  sortData_unknown_column [[("a", Val.num 1)], [("a", Val.num 0)]] "missing"
    SortDirection.Ascending [{ id := "b" }] rfl

/-- C2: when the identifier resolves to a column, descending sortData
is exactly the reverse of ascending sortData on the same inputs. -/
theorem sortData_descending_eq_reverse_ascending (data : List RowData)
    (cid : String) (cols : List Column)
    (h : (getColumnById cols cid).isSome = true) :
    sortData data cid SortDirection.Descending cols =
      (sortData data cid SortDirection.Ascending cols).reverse := by
  obtain ⟨c, hc⟩ := Option.isSome_iff_exists.mp h
  unfold sortData
  rw [hc]

/-- Witness for C2 at a concrete input (with a tie to show the reversed
tie group). -/
theorem sortData_descending_eq_reverse_ascending_witness :
    sortData [[("n", Val.num 2)], [("n", Val.num 2)], [("n", Val.num 1)]] "n"
      SortDirection.Descending [{ id := "n", type := DataType.Number }] =
    (sortData [[("n", Val.num 2)], [("n", Val.num 2)], [("n", Val.num 1)]] "n"
      SortDirection.Ascending [{ id := "n", type := DataType.Number }]).reverse :=
  sortData_descending_eq_reverse_ascending
    [[("n", Val.num 2)], [("n", Val.num 2)], [("n", Val.num 1)]] "n"
    [{ id := "n", type := DataType.Number }] rfl

/-- C7: when the identifier resolves to a column, sortData sorts with
exactly the comparator `getSortComparator` of the effective sort type
(`column.sortType` when present, else `column.type`). -/
theorem sortData_uses_effective_sort_type (data : List RowData) (cid : String)
    (dir : SortDirection) (cols : List Column) (c : Column)
    (h : getColumnById cols cid = some c) :
    sortData data cid dir cols =
      (let sorted :=
        (jsSort (compLe (getSortComparator (effectiveSortType c)))
          (toSortItems c data cols 0 data)).map (·.rowData)
       match dir with
       | SortDirection.Descending => sorted.reverse
       | SortDirection.Ascending => sorted) := by
  unfold sortData
  rw [h]

/-- Witness for C7 at a concrete input whose `sortType` overrides its
`type`. -/
theorem sortData_uses_effective_sort_type_witness :
    sortData [[("n", Val.num 1)], [("n", Val.num 2)]] "n"
      SortDirection.Ascending
      [{ id := "n", type := DataType.Other, sortType := some DataType.Number }] =
      (let sorted :=
        (jsSort (compLe (getSortComparator (effectiveSortType
            { id := "n", type := DataType.Other,
              sortType := some DataType.Number })))
          (toSortItems
            { id := "n", type := DataType.Other,
              sortType := some DataType.Number }
            [[("n", Val.num 1)], [("n", Val.num 2)]]
            [{ id := "n", type := DataType.Other,
               sortType := some DataType.Number }] 0
            [[("n", Val.num 1)], [("n", Val.num 2)]])).map (·.rowData)
       match SortDirection.Ascending with
       | SortDirection.Descending => sorted.reverse
       | SortDirection.Ascending => sorted) :=
  sortData_uses_effective_sort_type [[("n", Val.num 1)], [("n", Val.num 2)]]
    "n" SortDirection.Ascending
    [{ id := "n", type := DataType.Other, sortType := some DataType.Number }]
    { id := "n", type := DataType.Other, sortType := some DataType.Number } rfl

/-- C8: the column lookup is the linear scan returning the first column
whose id equals the target (`firstMatch`, written from the spec): `none`
when nothing matches, and silently the earliest match on duplicates. -/
theorem getColumnById_eq_firstMatch (cols : List Column) (cid : String) :
    getColumnById cols cid = firstMatch cols cid := by
  induction cols with
  | nil => rfl
  | cons c cs ih =>
    rcases eq_or_ne c.id cid with h | h
    · rw [firstMatch, if_pos h]
      exact List.find?_cons_of_pos _ (by simp [h])
    · rw [firstMatch, if_neg h, ← ih]
      exact List.find?_cons_of_neg _ (by simp [h])

/-- Inserting into a list permutes consing onto it. -/
theorem insertItem_perm (le : SortItem → SortItem → Bool) (x : SortItem)
    (l : List SortItem) : List.Perm (insertItem le x l) (x :: l) := by
  induction l with
  | nil => exact List.Perm.refl _
  | cons y ys ih =>
    rw [insertItem]
    split
    · exact List.Perm.refl _
    · exact (ih.cons y).trans (List.Perm.swap x y ys)

/-- The model sort permutes its input. -/
theorem jsSort_perm (le : SortItem → SortItem → Bool) (l : List SortItem) :
    List.Perm (jsSort le l) l := by
  induction l with
  | nil => exact List.Perm.refl _
  | cons x xs ih =>
    exact (insertItem_perm le x (jsSort le xs)).trans (ih.cons x)

/-- Projecting the sort items of a row list back to row data recovers
the row list. -/
theorem toSortItems_map_rowData (c : Column) (data : List RowData)
    (cols : List Column) : ∀ (i : Nat) (rs : List RowData),
    (toSortItems c data cols i rs).map (·.rowData) = rs := by
  intro i rs
  induction rs generalizing i with
  | nil => rfl
  | cons r rest ih => simp [toSortItems, ih]

/-- C10: sortData returns a permutation of the input row collection —
the same rows as a multiset, none duplicated, dropped, or replaced
(this holds for any direction, and trivially also when the identifier
does not resolve). -/
theorem sortData_perm (data : List RowData) (cid : String)
    (dir : SortDirection) (cols : List Column) :
    List.Perm (sortData data cid dir cols) data := by
  unfold sortData
  cases hc : getColumnById cols cid with
  | none => exact List.Perm.refl _
  | some c =>
    have h1 :=
      (jsSort_perm (compLe (getSortComparator (effectiveSortType c)))
        (toSortItems c data cols 0 data)).map (·.rowData)
    rw [toSortItems_map_rowData] at h1
    cases dir with
    | Ascending => exact h1
    | Descending => exact (List.reverse_perm _).trans h1

/-- C1 as stated is false: under the Number comparator, two items with
equal non-null sort keys that do not parse as numbers (here the string
"abc") make `parseFloat` yield NaN, the difference is NaN, `NaN === 0`
is false, and the comparator returns NaN (`none`) — not a negative
number — even though `a.index < b.index`. -/
theorem comparator_equal_keys_index_order_counterexample :
    ¬ (∀ (t : DataType) (a b : SortItem), a.sortValue = b.sortValue →
        a.index < b.index →
        ∃ d : Int, getSortComparator t a b = some d ∧ d < 0) := by
  intro h
  obtain ⟨d, hd, -⟩ := h DataType.Number ⟨[], 0, some (Val.str "abc")⟩
    ⟨[], 1, some (Val.str "abc")⟩ rfl (by decide)
  rw [show getSortComparator DataType.Number ⟨[], 0, some (Val.str "abc")⟩
      ⟨[], 1, some (Val.str "abc")⟩ = none from rfl] at hd
  exact Option.noConfusion hd

/-- Every value is strictly equal to itself in this value domain. -/
theorem jsStrictEq_refl (v : Val) : jsStrictEq v v = true := by
  cases v <;> simp [jsStrictEq]

/-- Locale comparison of a string with itself is zero. -/
theorem strCompare_self (s : String) : strCompare s s = 0 := by
  simp [strCompare]

/-- C1 amended: for every data type and every pair of sort items with
equal sort keys, provided the key is null or (for the numeric
comparators) parses as a number, the comparator returns exactly
`a.index - b.index` — negative when `a.index < b.index`, positive when
`a.index > b.index` — which is what anchors the stable sort. -/
theorem comparator_equal_comparable_keys_index_order (t : DataType)
    (rd rd' : RowData) (i j : Nat) (k : Option Val)
    (h : comparableKey t k = true) :
    getSortComparator t ⟨rd, i, k⟩ ⟨rd', j, k⟩ =
      some ((i : Int) - (j : Int)) := by
  cases t <;> cases k with
  | _ => first
    | rfl
    | · rename_i v
        first
        | · obtain ⟨p, hp⟩ := Option.isSome_iff_exists.mp (by simpa [comparableKey] using h)
            simp [getSortComparator, numberComparator, hp]
        | · simp [getSortComparator, stringComparator, strCompare_self]
        | · simp [getSortComparator, defaultComparator, jsStrictEq_refl]

/-- Witness for the amended C1 at a concrete input: equal numeric keys,
`a.index = 2 > b.index = 0`, so the comparator returns the positive
number 2. -/
theorem comparator_equal_comparable_keys_index_order_witness :
    getSortComparator DataType.Number ⟨[], 2, some (Val.num 5)⟩
      ⟨[], 0, some (Val.num 5)⟩ = some 2 :=
  comparator_equal_comparable_keys_index_order DataType.Number [] [] 2 0
    (some (Val.num 5)) (by decide)

theorem joinPos_nil (o : Option (List Nat)) : joinPos o [] = o := by
  cases o <;> simp [joinPos]

theorem joinPos_push (o : Option (List Nat)) (i : Nat) (l : List Nat) :
    joinPos (some ((o.getD []) ++ [i])) l = joinPos o (i :: l) := by
  cases o <;> cases l <;> simp [joinPos]

theorem lookupIds_cons (e : String × List Nat)
    (rest : List (String × List Nat)) (k : String) :
    lookupIds (e :: rest) k =
      if e.1 = k then some e.2 else lookupIds rest k := by
  rcases eq_or_ne e.1 k with h | h
  · rw [if_pos h]
    unfold lookupIds
    rw [List.find?_cons_of_pos _ (by simp [h])]
    rfl
  · rw [if_neg h]
    unfold lookupIds
    rw [List.find?_cons_of_neg _ (by simp [h])]

theorem addIdOwn_lookup (ids : List (String × List Nat)) (id : String) (i : Nat)
    (k : String) :
    lookupIds (addIdOwn ids id i) k =
      if k = id then some (((lookupIds ids id).getD []) ++ [i])
      else lookupIds ids k := by
  induction ids with
  | nil =>
    rcases eq_or_ne k id with h | h
    · subst h; simp [addIdOwn, lookupIds]
    · simp [addIdOwn, lookupIds, h, Ne.symm h]
  | cons e rest ih =>
    obtain ⟨k0, ps⟩ := e
    rw [addIdOwn]
    rcases eq_or_ne k0 id with h0 | h0
    · rw [if_pos h0]
      subst h0
      rcases eq_or_ne k k0 with hk | hk
      · subst hk
        simp [lookupIds_cons]
      · simp [lookupIds_cons, hk, Ne.symm hk]
    · rw [if_neg h0]
      rcases eq_or_ne k k0 with hk | hk
      · subst hk
        simp [lookupIds_cons, h0]
      · simp [lookupIds_cons, hk, Ne.symm hk, h0, ih]

theorem buildIdsOwn_lookup (k : String) : ∀ (cs : List Column)
    (ids : List (String × List Nat)) (i : Nat),
    lookupIds (buildIdsOwn ids i cs) k = joinPos (lookupIds ids k) (posFrom k i cs) := by
  intro cs
  induction cs with
  | nil => intro ids i; rw [buildIdsOwn, posFrom, joinPos_nil]
  | cons c cs ih =>
    intro ids i
    rw [buildIdsOwn, ih, addIdOwn_lookup, posFrom]
    rcases eq_or_ne c.id k with h | h
    · rw [if_pos (h.symm), if_pos h, joinPos_push, h]
    · rw [if_neg (Ne.symm h), if_neg h]

theorem addIdOwn_keys (ids : List (String × List Nat)) (id : String) (i : Nat) :
    idKeys (addIdOwn ids id i) =
      if id ∈ idKeys ids then idKeys ids else idKeys ids ++ [id] := by
  induction ids with
  | nil => simp [addIdOwn, idKeys]
  | cons e rest ih =>
    obtain ⟨k0, ps⟩ := e
    rw [addIdOwn]
    rcases eq_or_ne k0 id with h | h
    · subst h
      simp [idKeys]
    · simp only [idKeys, List.map_cons, List.mem_cons] at *
      rw [if_neg h]
      simp only [List.map_cons, ih]
      rcases Decidable.em (id ∈ List.map (·.1) rest) with hm | hm
      · rw [if_pos hm, if_pos (Or.inr hm)]
      · rw [if_neg hm, if_neg (by simp [hm, Ne.symm h])]
        rfl

theorem addIdOwn_keys_nodup (ids : List (String × List Nat)) (id : String)
    (i : Nat) (h : (idKeys ids).Nodup) : (idKeys (addIdOwn ids id i)).Nodup := by
  rw [addIdOwn_keys]
  split
  · exact h
  · rename_i hm
    exact List.Nodup.append h (List.nodup_singleton id) (by simp [hm])

theorem buildIdsOwn_keys_nodup : ∀ (cs : List Column)
    (ids : List (String × List Nat)) (i : Nat),
    (idKeys ids).Nodup → (idKeys (buildIdsOwn ids i cs)).Nodup := by
  intro cs
  induction cs with
  | nil => intro ids i h; exact h
  | cons c cs ih =>
    intro ids i h
    exact ih _ _ (addIdOwn_keys_nodup ids c.id i h)

theorem lookupIds_eq_none_iff (ids : List (String × List Nat)) (k : String) :
    lookupIds ids k = none ↔ k ∉ idKeys ids := by
  induction ids with
  | nil => simp [lookupIds, idKeys]
  | cons e rest ih =>
    rw [lookupIds_cons]
    rcases eq_or_ne e.1 k with h | h
    · simp [h, idKeys]
    · simp [h, idKeys, ih, Ne.symm h]

theorem mem_lookupIds (ids : List (String × List Nat))
    (e : String × List Nat) (h : (idKeys ids).Nodup) (he : e ∈ ids) :
    lookupIds ids e.1 = some e.2 := by
  induction ids with
  | nil => exact absurd he (List.not_mem_nil e)
  | cons x rest ih =>
    rw [List.mem_cons] at he
    rw [idKeys, List.map_cons, List.nodup_cons] at h
    rcases he with he | he
    · subst he
      rw [lookupIds_cons, if_pos rfl]
    · have hne : x.1 ≠ e.1 := by
        intro hx
        exact h.1 (hx ▸ List.mem_map_of_mem (·.1) he)
      rw [lookupIds_cons, if_neg hne]
      exact ih h.2 he

theorem addId_ok (ids : List (String × List Nat)) (id : String) (i : Nat)
    (h : protoTruthy id = false) :
    addId ids id i = Except.ok (addIdOwn ids id i) := by
  induction ids with
  | nil => simp [addId, addIdOwn, h]
  | cons e rest ih =>
    obtain ⟨k, ps⟩ := e
    rw [addId, addIdOwn]
    rcases eq_or_ne k id with hk | hk
    · rw [if_pos hk, if_pos hk]
    · rw [if_neg hk, if_neg hk, ih]
      rfl

theorem buildIds_ok : ∀ (cs : List Column) (ids : List (String × List Nat))
    (i : Nat), (∀ c ∈ cs, protoTruthy c.id = false) →
    buildIds ids i cs = Except.ok (buildIdsOwn ids i cs) := by
  intro cs
  induction cs with
  | nil => intro ids i _; rfl
  | cons c cs ih =>
    intro ids i h
    simp only [buildIds, buildIdsOwn]
    rw [addId_ok ids c.id i (h c (List.mem_cons_self c cs))]
    exact ih _ _ (fun c2 hc2 => h c2 (List.mem_cons_of_mem c hc2))

theorem validateColumns_some_ok (cols : List Column)
    (h : ∀ c ∈ cols, protoTruthy c.id = false) :
    validateColumns (some cols) =
      Except.ok ((buildIdsOwn [] 0 cols).filterMap (validatorDiag cols)) := by
  simp only [validateColumns]
  rw [buildIds_ok cols [] 0 h]
  rfl

theorem filterMap_filter_count (cols : List Column) (k : String) :
    ∀ (l : List (String × List Nat)), (idKeys l).Nodup →
    ((l.filterMap (validatorDiag cols)).filter (fun d => d.id == k)).length =
      (match lookupIds l k with
       | some ps => if 1 < ps.length then 1 else 0
       | none => 0) := by
  intro l
  induction l with
  | nil => intro _; rfl
  | cons e rest ih =>
    intro h
    rw [idKeys, List.map_cons, List.nodup_cons] at h
    rw [lookupIds_cons]
    rcases eq_or_ne e.1 k with hk | hk
    · rw [if_pos hk]
      have hrest : lookupIds rest k = none :=
        (lookupIds_eq_none_iff rest k).mpr (hk ▸ h.1)
      have hresteq := ih h.2
      rw [hrest] at hresteq
      rcases Decidable.em (1 < e.2.length) with hl | hl
      · have hv : validatorDiag cols e =
            some ⟨e.1, e.2, e.2.map (fun i => cols.getD i default)⟩ := by
          simp only [validatorDiag]
          rw [if_pos hl]
        simp only [List.filterMap_cons, hv, List.filter_cons, hk,
          beq_self_eq_true, if_true, List.length_cons]
        simp [hresteq, hl]
      · have hv : validatorDiag cols e = none := by
          simp only [validatorDiag]
          rw [if_neg hl]
        simp only [List.filterMap_cons, hv]
        simp [hresteq, hl]
    · rw [if_neg hk]
      rcases Decidable.em (1 < e.2.length) with hl | hl
      · have hv : validatorDiag cols e =
            some ⟨e.1, e.2, e.2.map (fun i => cols.getD i default)⟩ := by
          simp only [validatorDiag]
          rw [if_pos hl]
        simp only [List.filterMap_cons, hv, List.filter_cons]
        rw [if_neg (by simp [hk])]
        exact ih h.2
      · have hv : validatorDiag cols e = none := by
          simp only [validatorDiag]
          rw [if_neg hl]
        simp only [List.filterMap_cons, hv]
        exact ih h.2

/-- C9 as stated is false: validateColumns does not return normally for
every column collection. On the single-column collection whose id is
"toString", the plain-object read `ids['toString']` finds the inherited
truthy `Object.prototype.toString` on the id's first occurrence, takes
the else branch, and `ids[id].push(0)` throws a TypeError instead of
emitting zero diagnostics. -/
theorem validateColumns_proto_id_counterexample :
    validateColumns (some [{ id := "toString" }]) =
      Except.error JsError.typeError ∧
    ¬ ∃ ds, validateColumns (some [{ id := "toString" }]) = Except.ok ds := by
  refine ⟨rfl, ?_⟩
  rintro ⟨ds, h⟩
  rw [show validateColumns (some [{ id := "toString" }]) =
      Except.error JsError.typeError from rfl] at h
  exact Except.noConfusion h

/-- C9 amended: for every column collection none of whose identifiers is
an `Object.prototype` property name, the validator returns normally and
emits exactly one diagnostic per identifier occurring at more than one
position and none for identifiers occurring at most once (the count of
diagnostics carrying identifier `k` is 1 or 0 accordingly); every
diagnostic lists the identifier's positions in ascending order and the
column definitions at those positions; it is a no-op on an absent
collection; being a pure function of its input it modifies nothing; and
on `[\x7bid:'a'\x7d, \x7bid:'b'\x7d, \x7bid:'a'\x7d]` it emits exactly
one diagnostic, for `'a'` at positions 0 and 2. (For a collection with a
colliding identifier the source instead throws a TypeError.) -/
theorem validateColumns_duplicate_id_diagnostics (cs : List Column) (k : String)
    (hp : ∀ c ∈ cs, protoTruthy c.id = false) :
    validateColumns none = Except.ok [] ∧
    (∃ ds, validateColumns (some cs) = Except.ok ds ∧
      ((ds.filter (fun d => d.id == k)).length =
        (if 1 < (posFrom k 0 cs).length then 1 else 0)) ∧
      (∀ d ∈ ds, 1 < d.positions.length ∧ d.positions = posFrom d.id 0 cs ∧
        d.offenders = d.positions.map (fun i => cs.getD i default))) ∧
    validateColumns (some exampleColumns) =
      Except.ok [{ id := "a", positions := [0, 2],
                   offenders := [{ id := "a" }, { id := "a" }] }] := by
  refine ⟨rfl, ⟨(buildIdsOwn [] 0 cs).filterMap (validatorDiag cs),
    validateColumns_some_ok cs hp, ?_, ?_⟩, rfl⟩
  · rw [filterMap_filter_count cs k _ (buildIdsOwn_keys_nodup cs [] 0 (by simp [idKeys])),
      buildIdsOwn_lookup k cs [] 0,
      show lookupIds [] k = none from rfl]
    cases hp2 : posFrom k 0 cs with
    | nil => simp [joinPos]
    | cons x l => simp [joinPos]
  · intro d hd
    rw [List.mem_filterMap] at hd
    obtain ⟨e, he, hfe⟩ := hd
    unfold validatorDiag at hfe
    rcases Decidable.em (1 < e.2.length) with hl | hl
    · rw [if_pos hl] at hfe
      have hlook := mem_lookupIds _ e
        (buildIdsOwn_keys_nodup cs [] 0 (by simp [idKeys])) he
      rw [buildIdsOwn_lookup e.1 cs [] 0,
        show lookupIds [] e.1 = none from rfl] at hlook
      have hpos : e.2 = posFrom e.1 0 cs := by
        cases hp3 : posFrom e.1 0 cs with
        | nil => rw [hp3] at hlook; exact absurd hlook (by simp [joinPos])
        | cons x l =>
          rw [hp3] at hlook
          simpa [joinPos] using hlook.symm
      cases hfe
      exact ⟨hl, hpos, rfl⟩
    · rw [if_neg hl] at hfe
      exact Option.noConfusion hfe

/-- Witness for the amended C9 at the spec's own example collection,
whose ids "a" and "b" are not `Object.prototype` property names. -/
theorem validateColumns_duplicate_id_diagnostics_witness :
    validateColumns none = Except.ok [] ∧
    (∃ ds, validateColumns (some exampleColumns) = Except.ok ds ∧
      ((ds.filter (fun d => d.id == "a")).length =
        (if 1 < (posFrom "a" 0 exampleColumns).length then 1 else 0)) ∧
      (∀ d ∈ ds, 1 < d.positions.length ∧
        d.positions = posFrom d.id 0 exampleColumns ∧
        d.offenders = d.positions.map (fun i => exampleColumns.getD i default))) ∧
    validateColumns (some exampleColumns) =
      Except.ok [{ id := "a", positions := [0, 2],
                   offenders := [{ id := "a" }, { id := "a" }] }] :=
  validateColumns_duplicate_id_diagnostics exampleColumns "a" (by decide)
